import Mathlib

/-!
Verification of the generic `Graph` layout/rendering engine (`generic.py`).

The embedding models Python dictionaries as insertion-ordered association
lists (`Dict.get` / `Dict.set` mirror `d[k]` lookup and `d[k] = v`
assignment: an existing key keeps its position, a new key is appended).
Numeric coordinates are modelled by `ℚ` for the state operations (the code
performs only field arithmetic there); the arrow geometry of `_render`,
which takes a square root, is modelled over `ℝ` at the end of the file.

Of the keyword arguments forwarded to the plotting library, the model
tracks exactly those the `Graph` logic itself reads back: a node circle is
its `center` and `radius` (the `radius` keyword is a required argument of
`Circle`, resolved from the node-type kwargs or the call kwargs, a
`TypeError` arising when both or neither bind it), a rectangle is its
corner, `width`, `height` and `label_position`, and connection kwargs are
kept as an opaque association list that is stored but never inspected.
Purely presentational kwargs (colours, `annot_size`, labels) are dropped:
no modelled state or claim reads them.

Failures (assertion errors, `KeyError` from type-dictionary lookups,
`TypeError` from `Circle` argument resolution) are modelled with
`Except String`.
-/

namespace GraphSpec

/-! ### Association-list model of Python dict -/

namespace Dict

/-- Lookup of `d[k]`: `none` models a `KeyError`. -/
def get {K V : Type} [DecidableEq K] : List (K × V) → K → Option V
  | [], _ => none
  | (k, v) :: t, q => if k = q then some v else get t q

/-- Assignment `d[k] = v`: replaces in place, or appends a fresh key. -/
def set {K V : Type} [DecidableEq K] : List (K × V) → K → V → List (K × V)
  | [], q, w => [(q, w)]
  | (k, v) :: t, q, w => if k = q then (q, w) :: t else (k, v) :: set t q w

end Dict

/-- Success test for a modelled call. -/
def isOk {ε α : Type} : Except ε α → Bool
  | .ok _ => true
  | .error _ => false

/-! ### Data model -/

/-- The state the `Circle` object contributes to the graph: its center
(already orientation-swapped by `_add_node` when `vertical`) and radius. -/
structure Circle where
  center : ℚ × ℚ
  radius : ℚ
deriving DecidableEq, Repr

/-- The state stored for a rectangle: `plt.Rectangle(xy, width, height)`
plus the `label_position` attribute set by `_add_rectangle`. -/
structure Rect where
  xy : ℚ × ℚ
  width : ℚ
  height : ℚ
  label_position : ℚ × ℚ
deriving DecidableEq, Repr

/-- Opaque connection / rectangle kwargs: stored, never inspected. -/
abbrev Kwargs := List (String × ℚ)

/-- The `Graph` state.  `node_types` values are the radius binding the
type kwargs contribute to `Circle` (`none` when the type kwargs carry no
`radius` key); connection and rectangle type kwargs stay opaque. -/
structure Graph where
  node_types : List (Option String × Option ℚ)
  connection_types : List (Option String × Kwargs)
  rectangle_types : List (Option String × Kwargs)
  nodes : List (String × Circle)
  connections : List (String × List (String × Kwargs))
  rectangles : List (String × Rect)
deriving DecidableEq, Repr

/-- Model of `Graph.__init__`: stores the type dictionaries, then
`d.update({None : {}})` forces the `None` key into each of them;
`nodes`, `connections`, `rectangles` start empty. -/
def Graph.init (nts : List (Option String × Option ℚ))
    (cts rts : List (Option String × Kwargs)) : Graph where
  node_types := Dict.set nts none none
  connection_types := Dict.set cts none []
  rectangle_types := Dict.set rts none []
  nodes := []
  connections := []
  rectangles := []

/-! ### Operations -/

/-- Resolution of the `radius` argument of `Circle(xy, **type_kwargs,
**kwargs)`: a `TypeError` when both kwarg dicts bind `radius` (multiple
values) or neither does (missing required positional argument). -/
def mergeRadius : Option ℚ → Option ℚ → Except String ℚ
  | some _, some _ => .error "TypeError: multiple values for radius"
  | some r, none => .ok r
  | none, some r => .ok r
  | none, none => .error "TypeError: missing required argument radius"

/-- Model of `Graph._add_connection(A, B, connection_type)`: asserts both endpoints
exist, then `self.connections[A][B] = self.connection_types[connection_type]`
(the right-hand lookup and the `connections[A]` subscript can each raise
`KeyError`). -/
def Graph.add_connection (g : Graph) (A B : String) (t : Option String) :
    Except String Graph :=
  if ((Dict.get g.nodes A).isSome && (Dict.get g.nodes B).isSome) = true then
    match Dict.get g.connection_types t with
    | none => .error "KeyError: connection_type"
    | some kw =>
      match Dict.get g.connections A with
      | none => .error "KeyError: connections[A]"
      | some d =>
        .ok { g with connections := Dict.set g.connections A (Dict.set d B kw) }
  else .error "AssertionError: A in nodes and B in nodes"

/-- The loop of `_add_node` over a list of `(A, B)` pairs handed to
`_add_connection`. -/
def Graph.addConnectionList (g : Graph) (ps : List (String × String))
    (t : Option String) : Except String Graph :=
  match ps with
  | [] => .ok g
  | (a, b) :: rest =>
    match g.add_connection a b t with
    | .error e => .error e
    | .ok g' => g'.addConnectionList rest t

/-- Model of `Graph._add_node` (and the forwarding `Graph.add_node`): asserts the
name is fresh, builds `Circle(xy[::-1] if vertical else xy,
**node_types[node_type], **kwargs)` (`kwr` is the `radius` binding of the
call kwargs), registers the node with an empty outgoing-connection dict,
then runs `_add_connection` over `connect_to` (as `(conn, name)`) and
`connect_from` (as `(name, conn)`).  The Python `str` cases of
`connect_to`/`connect_from` are lists of one-character names here (for
`connect_from`, a rebinding typo makes a bare string iterate per
character, which coincides with that reading). -/
def Graph.add_node (g : Graph) (name : String) (xy : ℚ × ℚ)
    (node_type : Option String) (vertical : Bool)
    (connect_to connect_from : Option (List String))
    (connection_type : Option String) (kwr : Option ℚ) :
    Except String Graph :=
  if (Dict.get g.nodes name).isSome = true then
    .error "AssertionError: name not in nodes"
  else
    match Dict.get g.node_types node_type with
    | none => .error "KeyError: node_type"
    | some tkw =>
      match mergeRadius tkw kwr with
      | .error e => .error e
      | .ok r =>
        let c : Circle := { center := if vertical then (xy.2, xy.1) else xy, radius := r }
        let g1 : Graph :=
          { g with
            nodes := Dict.set g.nodes name c,
            connections := Dict.set g.connections name [] }
        match g1.addConnectionList
            ((connect_to.getD []).map fun a => (a, name)) connection_type with
        | .error e => .error e
        | .ok g2 =>
          g2.addConnectionList
            ((connect_from.getD []).map fun b => (name, b)) connection_type

/-- Model of `Graph._add_rectangle` (and the forwarding `Graph.add_rectangle`):
asserts the name is fresh, looks up the rectangle type kwargs, stores the
rectangle with `label_position` defaulting to the center. -/
def Graph.add_rectangle (g : Graph) (name : String) (xy : ℚ × ℚ)
    (width height : ℚ) (rectangle_type : Option String)
    (label_position : Option (ℚ × ℚ)) : Except String Graph :=
  if (Dict.get g.rectangles name).isSome = true then
    .error "AssertionError: name not in rectangles"
  else
    match Dict.get g.rectangle_types rectangle_type with
    | none => .error "KeyError: rectangle_type"
    | some _ =>
      let lp : ℚ × ℚ :=
        match label_position with
        | none => (xy.1 + width / 2, xy.2 + height / 2)
        | some p => p
      .ok { g with
            rectangles :=
              Dict.set g.rectangles name
                { xy := xy, width := width, height := height, label_position := lp } }

/-! ### The bounding-box fold of `Graph._render` -/

/-- One iteration of the rectangle loop of `_render` (source lines
206-210), on the state `((x0, x1), (y0, y1))`.  The source updates the
maxima from the just-updated minima (`x[1] = max(x[0], ...)`,
`y[1] = max(y[0], ...)`), not from the running maxima; the model keeps
that behaviour. -/
def rectStep (s : (ℚ × ℚ) × (ℚ × ℚ)) (nr : String × Rect) : (ℚ × ℚ) × (ℚ × ℚ) :=
  let r := nr.2
  let x0 := min s.1.1 r.xy.1
  let x1 := max x0 (r.xy.1 + r.width)
  let y0 := min s.2.1 r.xy.2
  let y1 := max y0 (r.xy.2 + r.height)
  ((x0, x1), (y0, y1))

/-- One iteration of the node loop of `_render` (source lines 212-216). -/
def nodeStep (s : (ℚ × ℚ) × (ℚ × ℚ)) (nc : String × Circle) : (ℚ × ℚ) × (ℚ × ℚ) :=
  let n := nc.2
  ((min s.1.1 (n.center.1 - n.radius), max s.1.2 (n.center.1 + n.radius)),
   (min s.2.1 (n.center.2 - n.radius), max s.2.2 (n.center.2 + n.radius)))

/-- The extents `((x_min, x_max), (y_min, y_max))` computed by
`Graph._render` before `figsize = (x[1] - x[0], y[1] - y[0])`: the state
starts at `[[0, 0], [0, 0]]` and is folded over the rectangles, then the
nodes, in insertion order. -/
def Graph.renderBBox (g : Graph) : (ℚ × ℚ) × (ℚ × ℚ) :=
  g.nodes.foldl nodeStep (g.rectangles.foldl rectStep ((0, 0), (0, 0)))

/-! ### Command sequences, reachable states, the key invariant -/

/-- One call of the public mutation interface. -/
inductive Command where
  | node (name : String) (xy : ℚ × ℚ) (node_type : Option String)
      (vertical : Bool) (connect_to connect_from : Option (List String))
      (connection_type : Option String) (kwr : Option ℚ)
  | conn (A B : String) (t : Option String)
  | rect (name : String) (xy : ℚ × ℚ) (width height : ℚ)
      (rectangle_type : Option String) (label_position : Option (ℚ × ℚ))
deriving DecidableEq

/-- Executing one command on a state. -/
def exec (g : Graph) : Command → Except String Graph
  | .node n xy t v ct cf cty r => g.add_node n xy t v ct cf cty r
  | .conn a b t => g.add_connection a b t
  | .rect n xy w h t lp => g.add_rectangle n xy w h t lp

/-- Relation `Run g cs g'`: the successful execution of the call sequence `cs`
from state `g` ends in state `g'`. -/
inductive Run : Graph → List Command → Graph → Prop where
  | nil {g : Graph} : Run g [] g
  | cons {g : Graph} {c : Command} {g' : Graph} {cs : List Command}
      {g'' : Graph} : exec g c = .ok g' → Run g' cs g'' → Run g (c :: cs) g''

/-- States reachable from a freshly constructed `Graph` by successful
calls. -/
inductive Reachable : Graph → Prop where
  | init (nts : List (Option String × Option ℚ)) (cts rts : List (Option String × Kwargs)) :
      Reachable (Graph.init nts cts rts)
  | step {g : Graph} {c : Command} {g' : Graph} :
      Reachable g → exec g c = .ok g' → Reachable g'

/-- The connection invariant: every outer and every inner key of
`connections` names an existing node, and every node has an (outer)
`connections` entry. -/
def Inv (g : Graph) : Prop :=
  (∀ p ∈ g.connections,
      (Dict.get g.nodes p.1).isSome = true ∧
      ∀ q ∈ p.2, (Dict.get g.nodes q.1).isSome = true) ∧
  (∀ p ∈ g.nodes, (Dict.get g.connections p.1).isSome = true)

instance (g : Graph) : Decidable (Inv g) := by
  unfold Inv
  infer_instance

/-- Model of `Graph._gen_label(base, *args, bold)`.  Here `args` are the already
stringified indices (`map(str, args)`); the conditional expression of the
source is right-associative, so `bold` wins over the emptiness test of
the joined index string. -/
def gen_label (base : String) (args : List String) (bold : Bool) : String :=
  let ix := String.intercalate "," args
  if bold then "$\\mathbf\x7b" ++ base ++ "\x7d_\x7b" ++ ix ++ "\x7d$"
  else if ix ≠ "" then "$" ++ base ++ "_\x7b" ++ ix ++ "\x7d$"
  else "$" ++ base ++ "$"

/-! ### Arrow geometry of the connection loop of `_render`

The connection loop works on floating-point coordinates; it is modelled
over `ℝ`, with `** 0.5` as the real square root. -/

/-- Source line `delta = [b - a for a, b in zip(A.center, B.center)]`. -/
def delta (a b : ℝ × ℝ) : ℝ × ℝ := (b.1 - a.1, b.2 - a.2)

/-- Source line `dist = sum(d ** 2 for d in delta) ** 0.5`. -/
noncomputable def dist (a b : ℝ × ℝ) : ℝ :=
  Real.sqrt ((delta a b).1 ^ 2 + (delta a b).2 ^ 2)

/-- Source line `unit = [d / dist for d in delta]`. -/
noncomputable def unit (a b : ℝ × ℝ) : ℝ × ℝ :=
  ((delta a b).1 / dist a b, (delta a b).2 / dist a b)

/-- Source line `x, y = [z + A.radius * u for z, u in zip(A.center, unit)]`: the tail
of the drawn arrow. -/
noncomputable def arrowStart (a : ℝ × ℝ) (ra : ℝ) (b : ℝ × ℝ) : ℝ × ℝ :=
  (a.1 + ra * (unit a b).1, a.2 + ra * (unit a b).2)

/-- Source lines `diff = dist - A.radius - B.radius; dx, dy = [u * diff for u in unit]`:
the displacement of the drawn arrow. -/
noncomputable def arrowDelta (a : ℝ × ℝ) (ra : ℝ) (b : ℝ × ℝ) (rb : ℝ) : ℝ × ℝ :=
  ((unit a b).1 * (dist a b - ra - rb), (unit a b).2 * (dist a b - ra - rb))

/-! ### Spec-side closed forms for the bounding box

`fit...` definitions follow the wording of the (amended) bounding-box
claim, to be compared with `Graph.renderBBox`; `lastRect` names the last
rectangle of the insertion order. -/

/-- The last element of the rectangle list, if any. -/
def lastRect : List (String × Rect) → Option (String × Rect)
  | [] => none
  | [r] => some r
  | _ :: r :: rs => lastRect (r :: rs)

/-- Minimum of `0` and all rectangle left edges. -/
def fitRectXMin (rs : List (String × Rect)) : ℚ :=
  rs.foldl (fun m p => min m p.2.xy.1) 0

/-- Minimum of `0` and all rectangle bottom edges. -/
def fitRectYMin (rs : List (String × Rect)) : ℚ :=
  rs.foldl (fun m p => min m p.2.xy.2) 0

/-- Value `x_min`: minimum of `0`, all rectangle left edges and all node left
extents. -/
def fitXMin (g : Graph) : ℚ :=
  g.nodes.foldl (fun m p => min m (p.2.center.1 - p.2.radius)) (fitRectXMin g.rectangles)

/-- Value `y_min`: minimum of `0`, all rectangle bottom edges and all node
bottom extents. -/
def fitYMin (g : Graph) : ℚ :=
  g.nodes.foldl (fun m p => min m (p.2.center.2 - p.2.radius)) (fitRectYMin g.rectangles)

/-- Value `x_max`: the fold of `max` over the node right extents, started from
`0` when there is no rectangle and otherwise from
`max(fitRectXMin, right edge of the last rectangle)` — the rectangle loop
resets the running maximum from the running minimum each iteration, so
only the last rectangle survives it. -/
def fitXMax (g : Graph) : ℚ :=
  let m0 : ℚ :=
    match lastRect g.rectangles with
    | none => 0
    | some r => max (fitRectXMin g.rectangles) (r.2.xy.1 + r.2.width)
  g.nodes.foldl (fun m p => max m (p.2.center.1 + p.2.radius)) m0

/-- Value `y_max`: as `fitXMax`, for the vertical extents. -/
def fitYMax (g : Graph) : ℚ :=
  let m0 : ℚ :=
    match lastRect g.rectangles with
    | none => 0
    | some r => max (fitRectYMin g.rectangles) (r.2.xy.2 + r.2.height)
  g.nodes.foldl (fun m p => max m (p.2.center.2 + p.2.radius)) m0

/-- Maximum of a list of rationals (`0` when empty); used to state what
the original bounding-box claim predicts. -/
def listMax : List ℚ → ℚ
  | [] => 0
  | x :: xs => xs.foldl max x

/-- The `x_max` the original bounding-box claim predicts: the maximum
over all rectangles of `x` and `x + width` and all nodes of
`center.x ± radius`. -/
def claimedXMax (g : Graph) : ℚ :=
  listMax ((g.rectangles.map fun p => p.2.xy.1) ++
    (g.rectangles.map fun p => p.2.xy.1 + p.2.width) ++
    (g.nodes.map fun p => p.2.center.1 - p.2.radius) ++
    (g.nodes.map fun p => p.2.center.1 + p.2.radius))

/-! ### Concrete states used by witnesses and counterexamples -/

/-- A fresh graph with one user connection type `"e"`. -/
def gZero : Graph := Graph.init [] [(some "e", [("w", 1)])] []

/-- State `gZero` after `add_node("a", (0, 0), radius = 1)`. -/
def gOne : Graph :=
  { gZero with
    nodes := [("a", { center := (0, 0), radius := 1 })],
    connections := [("a", [])] }

/-- State `gOne` after `add_node("b", (3, 0), radius = 1)`. -/
def gTwo : Graph :=
  { gOne with
    nodes := [("a", { center := (0, 0), radius := 1 }),
              ("b", { center := (3, 0), radius := 1 })],
    connections := [("a", []), ("b", [])] }

/-- State `gTwo` after `add_connection("a", "b", "e")`. -/
def gW : Graph :=
  { gTwo with
    connections := [("a", [("b", [("w", 1)])]), ("b", [])] }

/-- The command sequence that builds `gW` from `gZero`. -/
def cmdsW : List Command :=
  [Command.node "a" (0, 0) none false none none none (some 1),
   Command.node "b" (3, 0) none false none none none (some 1),
   Command.conn "a" "b" (some "e")]

/-- A graph whose only contents are two rectangles with right edges 10
and 5: input of the bounding-box counterexample. -/
def gRects : Graph :=
  { gZero with
    rectangles := [("r1", { xy := (0, 0), width := 10, height := 1, label_position := (5, 1/2) }),
                   ("r2", { xy := (0, 0), width := 5, height := 1, label_position := (5/2, 1/2) })] }

/-- A graph whose only content is a rectangle strictly inside the third
quadrant: input showing the bounding box can miss the origin. -/
def gNeg : Graph :=
  { gZero with
    rectangles := [("r", { xy := (-10, -10), width := 1, height := 1, label_position := (-19/2, -19/2) })] }

/-! ## Lemmas about the dict model -/

theorem Dict.get_set_self {K V : Type} [DecidableEq K] (l : List (K × V)) (k : K) (v : V) :
    Dict.get (Dict.set l k v) k = some v := by
  induction l with
  | nil => simp [Dict.get, Dict.set]
  | cons hd t ih =>
    obtain ⟨a, b⟩ := hd
    by_cases hk : a = k
    · subst hk
      simp [Dict.get, Dict.set]
    · simp [Dict.get, Dict.set, hk, ih]

theorem Dict.get_set_ne {K V : Type} [DecidableEq K] (l : List (K × V)) (k q : K) (v : V)
    (h : q ≠ k) : Dict.get (Dict.set l k v) q = Dict.get l q := by
  induction l with
  | nil => simp [Dict.get, Dict.set, Ne.symm h]
  | cons hd t ih =>
    obtain ⟨a, b⟩ := hd
    by_cases hk : a = k
    · subst hk
      simp [Dict.get, Dict.set, Ne.symm h]
    · by_cases hq : a = q
      · subst hq
        simp [Dict.get, Dict.set, hk]
      · simp [Dict.get, Dict.set, hk, hq, ih]

theorem Dict.isSome_get_set {K V : Type} [DecidableEq K] (l : List (K × V)) (k q : K) (v : V) :
    (Dict.get (Dict.set l k v) q).isSome = true ↔
      q = k ∨ (Dict.get l q).isSome = true := by
  by_cases h : q = k
  · subst h
    simp [Dict.get_set_self]
  · simp [Dict.get_set_ne l k q v h, h]

theorem Dict.mem_set {K V : Type} [DecidableEq K] (l : List (K × V)) (k : K) (v : V)
    (p : K × V) (hp : p ∈ Dict.set l k v) : p = (k, v) ∨ p ∈ l := by
  induction l with
  | nil => simpa [Dict.set] using hp
  | cons hd t ih =>
    obtain ⟨a, b⟩ := hd
    by_cases hk : a = k
    · subst hk
      simp only [Dict.set, if_pos rfl] at hp
      rcases List.mem_cons.mp hp with h | h
      · exact Or.inl h
      · exact Or.inr (List.mem_cons_of_mem _ h)
    · simp only [Dict.set, if_neg hk] at hp
      rcases List.mem_cons.mp hp with h | h
      · exact Or.inr (h ▸ List.mem_cons_self _ _)
      · rcases ih h with h' | h'
        · exact Or.inl h'
        · exact Or.inr (List.mem_cons_of_mem _ h')

theorem Dict.get_mem {K V : Type} [DecidableEq K] (l : List (K × V)) (k : K) (v : V)
    (h : Dict.get l k = some v) : (k, v) ∈ l := by
  induction l with
  | nil => simp [Dict.get] at h
  | cons hd t ih =>
    obtain ⟨a, b⟩ := hd
    by_cases hk : a = k
    · subst hk
      simp [Dict.get] at h
      subst h
      exact List.mem_cons_self _ _
    · simp only [Dict.get, if_neg hk] at h
      exact List.mem_cons_of_mem _ (ih h)

/-! ## Claim C5: label formatting -/

/-- Claim C5 (amended): with `bold = True` the label is always the
`\mathbf` form with the comma-joined indices as subscript; with
`bold = False` and a nonempty joined index string it is the plain
subscripted form; with `bold = False` and an empty joined index string it
is the bare `$base$`. -/
theorem gen_label_spec (base : String) (args : List String) :
    gen_label base args true =
      "$\\mathbf\x7b" ++ base ++ "\x7d_\x7b" ++ String.intercalate "," args ++ "\x7d$" ∧
    (String.intercalate "," args ≠ "" →
      gen_label base args false =
        "$" ++ base ++ "_\x7b" ++ String.intercalate "," args ++ "\x7d$") ∧
    (String.intercalate "," args = "" →
      gen_label base args false = "$" ++ base ++ "$") := by
  refine ⟨rfl, fun h => ?_, fun h => ?_⟩
  · simp [gen_label, h]
  · simp [gen_label, h]

/-- Witness for C5 at `base = "x"`, `args = ["1", "2"]`, `bold = False`. -/
theorem gen_label_spec_witness :
    gen_label "x" ["1", "2"] false = "$x_\x7b1,2\x7d$" :=
  (gen_label_spec "x" ["1", "2"]).2.1 (by decide)

/-- Counterexample to C5 as stated: with `bold = False` and the single
index `""` (one index argument, so "at least one index"), the code
returns the bare label, not the subscripted one the claim predicts. -/
theorem gen_label_empty_index :
    gen_label "x" [""] false = "$x$" ∧ "$x$" ≠ "$x_\x7b\x7d$" := by
  constructor
  · rfl
  · decide

/-! ## Claim C3: add_node -/

/-- Claim C3 (amended): a call of `add_node` without
`connect_to`/`connect_from` succeeds exactly when the name is fresh, the
node type is a known key of `node_types` and exactly one of the type
kwargs and the call kwargs binds `radius`; under those preconditions the
new state holds the circle centered at `xy` (coordinates swapped when
`vertical`) under `name` in `nodes` and an empty mapping under `name` in
`connections`. -/
theorem add_node_spec (g : Graph) (name : String) (xy : ℚ × ℚ) (t : Option String)
    (v : Bool) (cty : Option String) (kwr : Option ℚ) :
    (isOk (g.add_node name xy t v none none cty kwr) = true ↔
      (Dict.get g.nodes name = none ∧
        ∃ tkw, Dict.get g.node_types t = some tkw ∧ isOk (mergeRadius tkw kwr) = true)) ∧
    (∀ tkw r, Dict.get g.nodes name = none → Dict.get g.node_types t = some tkw →
      mergeRadius tkw kwr = .ok r →
      g.add_node name xy t v none none cty kwr = .ok
        { g with
          nodes := Dict.set g.nodes name
            { center := if v then (xy.2, xy.1) else xy, radius := r },
          connections := Dict.set g.connections name [] } ∧
      Dict.get (Dict.set g.nodes name
          { center := if v then (xy.2, xy.1) else xy, radius := r }) name =
        some { center := if v then (xy.2, xy.1) else xy, radius := r } ∧
      Dict.get (Dict.set g.connections name ([] : List (String × Kwargs))) name =
        some []) := by
  constructor
  · rcases hn : Dict.get g.nodes name with _ | c
    · rcases ht : Dict.get g.node_types t with _ | tkw
      · simp [Graph.add_node, hn, ht, isOk]
      · rcases hm : mergeRadius tkw kwr with e | r
        · simp [Graph.add_node, hn, ht, hm, isOk]
        · simp [Graph.add_node, Graph.addConnectionList, hn, ht, hm, isOk]
    · simp [Graph.add_node, hn, isOk]
  · intro tkw r h1 h2 h3
    refine ⟨?_, Dict.get_set_self _ _ _, Dict.get_set_self _ _ _⟩
    simp [Graph.add_node, Graph.addConnectionList, h1, h2, h3]

/-- Witness for C3 at a fresh graph: adding node `"a"` at `(1, 2)` with
`vertical = true` and call-kwargs radius `3` succeeds and stores center
`(2, 1)`. -/
theorem add_node_spec_witness :
    Graph.add_node gZero "a" (1, 2) none true none none none (some 3) = .ok
      { gZero with
        nodes := [("a", { center := (2, 1), radius := 3 })],
        connections := [("a", [])] } ∧
    Dict.get [("a", ({ center := (2, 1), radius := 3 } : Circle))] "a" =
      some { center := (2, 1), radius := 3 } ∧
    Dict.get [("a", ([] : List (String × Kwargs)))] "a" = some [] :=
  (add_node_spec gZero "a" (1, 2) none true none (some 3)).2 none 3 rfl rfl rfl

/-- Counterexample to C3 as stated: on a fresh graph the name `"z"` is
not a key of `nodes`, yet the default call `add_node("z", (0, 0))` fails
(the `None` node type carries no kwargs, so `Circle` is missing its
required `radius` argument), where the claim predicts success for every
fresh name. -/
theorem add_node_default_fails :
    isOk (Graph.add_node gZero "z" (0, 0) none false none none none none) = false ∧
    Dict.get gZero.nodes "z" = none := by
  exact ⟨rfl, rfl⟩

/-! ## Claim C6: add_rectangle -/

/-- Claim C6 (amended): `add_rectangle` succeeds exactly when the name is
fresh in `rectangles` and the rectangle type is a known key of
`rectangle_types`; it then stores the rectangle with corner `xy`, the
given `width` and `height`, and `label_position` defaulting to the
center, and leaves `nodes` and `connections` unchanged. -/
theorem add_rectangle_spec (g : Graph) (name : String) (xy : ℚ × ℚ) (w h : ℚ)
    (rt : Option String) (lp : Option (ℚ × ℚ)) :
    (isOk (g.add_rectangle name xy w h rt lp) = true ↔
      (Dict.get g.rectangles name = none ∧
        (Dict.get g.rectangle_types rt).isSome = true)) ∧
    (∀ tkw, Dict.get g.rectangles name = none → Dict.get g.rectangle_types rt = some tkw →
      g.add_rectangle name xy w h rt lp = .ok
        { g with
          rectangles := Dict.set g.rectangles name
            { xy := xy, width := w, height := h,
              label_position := lp.getD (xy.1 + w / 2, xy.2 + h / 2) } } ∧
      Dict.get (Dict.set g.rectangles name
          { xy := xy, width := w, height := h,
            label_position := lp.getD (xy.1 + w / 2, xy.2 + h / 2) }) name =
        some { xy := xy, width := w, height := h,
               label_position := lp.getD (xy.1 + w / 2, xy.2 + h / 2) }) ∧
    (∀ g', g.add_rectangle name xy w h rt lp = .ok g' →
      g'.nodes = g.nodes ∧ g'.connections = g.connections) := by
  refine ⟨?_, ?_, ?_⟩
  · rcases hn : Dict.get g.rectangles name with _ | r0
    · rcases ht : Dict.get g.rectangle_types rt with _ | tkw
      · simp [Graph.add_rectangle, hn, ht, isOk]
      · simp [Graph.add_rectangle, hn, ht, isOk]
    · simp [Graph.add_rectangle, hn, isOk]
  · intro tkw h1 h2
    refine ⟨?_, Dict.get_set_self _ _ _⟩
    cases lp <;> simp [Graph.add_rectangle, h1, h2, Option.getD]
  · intro g' hg'
    rcases hn : Dict.get g.rectangles name with _ | r0
    · rcases ht : Dict.get g.rectangle_types rt with _ | tkw
      · simp [Graph.add_rectangle, hn, ht] at hg'
      · simp [Graph.add_rectangle, hn, ht] at hg'
        rw [← hg']
        exact ⟨rfl, rfl⟩
    · simp [Graph.add_rectangle, hn] at hg'

/-- Witness for C6: adding rectangle `"r"` at `(0, 0)` with width `4`
and height `2` on a fresh graph stores label position `(2, 1)` and keeps
`nodes` and `connections` empty. -/
theorem add_rectangle_spec_witness :
    Graph.add_rectangle gZero "r" (0, 0) 4 2 none none = .ok
      { gZero with
        rectangles := Dict.set gZero.rectangles "r"
          { xy := (0, 0), width := 4, height := 2,
            label_position := Option.getD none ((0, 0).1 + 4 / 2, (0, 0).2 + 2 / 2) } } ∧
    Dict.get (Dict.set gZero.rectangles "r"
        { xy := (0, 0), width := 4, height := 2,
          label_position := Option.getD none ((0, 0).1 + 4 / 2, (0, 0).2 + 2 / 2) }) "r" =
      some { xy := (0, 0), width := 4, height := 2,
             label_position := Option.getD none ((0, 0).1 + 4 / 2, (0, 0).2 + 2 / 2) } :=
  (add_rectangle_spec gZero "r" (0, 0) 4 2 none none).2.1 [] rfl rfl

/-- Counterexample to C6 as stated: the name `"r"` is fresh, yet
`add_rectangle` with the unknown rectangle type `"t"` fails with a
`KeyError`, where the claim predicts success for every fresh name. -/
theorem add_rectangle_unknown_type_fails :
    isOk (Graph.add_rectangle gZero "r" (0, 0) 1 1 (some "t") none) = false ∧
    Dict.get gZero.rectangles "r" = none := by
  exact ⟨rfl, rfl⟩

/-! ## Inversion and invariant-preservation lemmas -/

theorem add_connection_ok_elim {g : Graph} {A B : String} {t : Option String}
    {g' : Graph} (h : g.add_connection A B t = .ok g') :
    ((Dict.get g.nodes A).isSome && (Dict.get g.nodes B).isSome) = true ∧
    ∃ kw d, Dict.get g.connection_types t = some kw ∧
      Dict.get g.connections A = some d ∧
      g' = { g with connections := Dict.set g.connections A (Dict.set d B kw) } := by
  unfold Graph.add_connection at h
  split at h
  next hab =>
    split at h
    next => exact Except.noConfusion h
    next kw hkw =>
      split at h
      next => exact Except.noConfusion h
      next d hd => exact ⟨hab, kw, d, hkw, hd, (Except.ok.inj h).symm⟩
  next => exact Except.noConfusion h

theorem Inv.add_connection_preserved {g : Graph} {A B : String} {t : Option String}
    {g' : Graph} (hI : Inv g) (h : g.add_connection A B t = .ok g') : Inv g' := by
  obtain ⟨hab, kw, d, hkw, hd, rfl⟩ := add_connection_ok_elim h
  simp only [Bool.and_eq_true] at hab
  obtain ⟨hA, hB⟩ := hab
  constructor
  · intro p hp
    rcases Dict.mem_set _ _ _ p hp with h' | h'
    · subst h'
      refine ⟨hA, ?_⟩
      intro q hq
      rcases Dict.mem_set _ _ _ q hq with h'' | h''
      · subst h''
        exact hB
      · exact (hI.1 (A, d) (Dict.get_mem _ _ _ hd)).2 q h''
    · exact hI.1 p h'
  · intro p hp
    rcases eq_or_ne p.1 A with hPA | hPA
    · rw [show (({ g with connections := Dict.set g.connections A (Dict.set d B kw) } :
          Graph)).connections = Dict.set g.connections A (Dict.set d B kw) from rfl,
        hPA, Dict.get_set_self]
      rfl
    · rw [show (({ g with connections := Dict.set g.connections A (Dict.set d B kw) } :
          Graph)).connections = Dict.set g.connections A (Dict.set d B kw) from rfl,
        Dict.get_set_ne _ _ _ _ hPA]
      exact hI.2 p hp

theorem Inv.addConnectionList_preserved {ps : List (String × String)} :
    ∀ {g : Graph} {t : Option String} {g' : Graph}, Inv g →
      g.addConnectionList ps t = .ok g' → Inv g' := by
  induction ps with
  | nil =>
    intro g t g' hI h
    unfold Graph.addConnectionList at h
    exact (Except.ok.inj h) ▸ hI
  | cons p rest ih =>
    intro g t g' hI h
    obtain ⟨a, b⟩ := p
    unfold Graph.addConnectionList at h
    split at h
    · exact Except.noConfusion h
    · rename_i g1 hg1
      exact ih (hI.add_connection_preserved hg1) h

theorem Inv.register {g : Graph} (name : String) (c : Circle) (hI : Inv g) :
    Inv { g with
          nodes := Dict.set g.nodes name c,
          connections := Dict.set g.connections name [] } := by
  constructor
  · intro p hp
    rcases Dict.mem_set _ _ _ p hp with h' | h'
    · subst h'
      constructor
      · exact Option.isSome_iff_exists.mpr ⟨c, Dict.get_set_self _ _ _⟩
      · intro q hq
        exact absurd hq (List.not_mem_nil q)
    · have hold := hI.1 p h'
      constructor
      · exact (Dict.isSome_get_set _ _ _ _).mpr (Or.inr hold.1)
      · intro q hq
        exact (Dict.isSome_get_set _ _ _ _).mpr (Or.inr (hold.2 q hq))
  · intro p hp
    rcases Dict.mem_set _ _ _ p hp with h' | h'
    · subst h'
      exact Option.isSome_iff_exists.mpr ⟨[], Dict.get_set_self _ _ _⟩
    · exact (Dict.isSome_get_set _ _ _ _).mpr (Or.inr (hI.2 p h'))

theorem Inv.add_node_preserved {g : Graph} {name : String} {xy : ℚ × ℚ}
    {t : Option String} {v : Bool} {ct cf : Option (List String)}
    {cty : Option String} {kwr : Option ℚ} {g' : Graph} (hI : Inv g)
    (h : g.add_node name xy t v ct cf cty kwr = .ok g') : Inv g' := by
  unfold Graph.add_node at h
  split at h
  · exact Except.noConfusion h
  · split at h
    · exact Except.noConfusion h
    · split at h
      · exact Except.noConfusion h
      · simp only [] at h
        split at h
        · exact Except.noConfusion h
        · rename_i g2 hg2
          exact Inv.addConnectionList_preserved
            (Inv.addConnectionList_preserved (hI.register _ _) hg2) h

theorem Inv.add_rectangle_preserved {g : Graph} {name : String} {xy : ℚ × ℚ}
    {w hh : ℚ} {rt : Option String} {lp : Option (ℚ × ℚ)} {g' : Graph}
    (hI : Inv g) (h : g.add_rectangle name xy w hh rt lp = .ok g') : Inv g' := by
  unfold Graph.add_rectangle at h
  split at h
  · exact Except.noConfusion h
  · split at h
    · exact Except.noConfusion h
    · exact (Except.ok.inj h) ▸ hI

theorem inv_of_reachable {g : Graph} (h : Reachable g) : Inv g := by
  induction h with
  | init nts cts rts =>
    constructor
    · intro p hp
      exact absurd hp (List.not_mem_nil p)
    · intro p hp
      exact absurd hp (List.not_mem_nil p)
  | step hR hok ih =>
    rename_i g c g'
    cases c with
    | node n xy t v ct cf cty r => exact ih.add_node_preserved hok
    | conn a b t => exact ih.add_connection_preserved hok
    | rect n xy w hh t lp => exact ih.add_rectangle_preserved hok

/-! ## Concrete run used by witnesses -/

theorem stepA : exec gZero (Command.node "a" (0, 0) none false none none none (some 1)) =
    .ok gOne := rfl

theorem stepB : exec gOne (Command.node "b" (3, 0) none false none none none (some 1)) =
    .ok gTwo := rfl

theorem stepC : exec gTwo (Command.conn "a" "b" (some "e")) = .ok gW := rfl

theorem reachable_gW : Reachable gW :=
  Reachable.step (Reachable.step (Reachable.step
    (Reachable.init [] [(some "e", [("w", 1)])] []) stepA) stepB) stepC

theorem run_gW : Run gZero cmdsW gW :=
  Run.cons stepA (Run.cons stepB (Run.cons stepC Run.nil))

/-! ## Claim C8: the connection invariant -/

/-- Claim C8: in every state reachable from a fresh `Graph` by successful
calls, every outer and every inner key of `connections` is a key of
`nodes`, and every node name is an outer key of `connections`. -/
theorem connections_invariant (g : Graph) (h : Reachable g) : Inv g :=
  inv_of_reachable h

/-- Witness for C8 at the concrete reachable state `gW` (two nodes and
one connection). -/
theorem connections_invariant_witness : Inv gW :=
  connections_invariant gW reachable_gW

/-! ## Claim C7: determinism -/

/-- Claim C7: runs of the same command sequence from the same starting
state end in the same state. -/
theorem run_deterministic {g : Graph} {cs : List Command} {g1 g2 : Graph}
    (h1 : Run g cs g1) (h2 : Run g cs g2) : g1 = g2 := by
  induction h1 generalizing g2 with
  | nil =>
    cases h2
    rfl
  | cons hstep _ ih =>
    cases h2 with
    | cons hstep2 hrun2 =>
      rw [hstep] at hstep2
      exact ih ((Except.ok.inj hstep2) ▸ hrun2)

/-- Witness for C7: the concrete three-command run from a fresh graph
reaches `gW`, and determinism applied to two copies of that run equates
the results. -/
theorem run_deterministic_witness : Run gZero cmdsW gW ∧ gW = gW :=
  ⟨run_gW, run_deterministic run_gW run_gW⟩

/-! ## Claim C4: add_connection checks and effect -/

/-- Claim C4 (amended): in a reachable state, `add_connection(A, B, t)`
succeeds exactly when `A` and `B` are existing nodes and `t` is a known
connection type; on success the kwargs of `t` are stored under
`connections[A][B]`, and for `A ≠ B` the entry `connections[B]` (hence
any `B → A` connection) is untouched. -/
theorem add_connection_checks (g : Graph) (A B : String) (t : Option String)
    (hr : Reachable g) :
    (isOk (g.add_connection A B t) = true ↔
      ((Dict.get g.nodes A).isSome = true ∧ (Dict.get g.nodes B).isSome = true ∧
        (Dict.get g.connection_types t).isSome = true)) ∧
    (∀ g', g.add_connection A B t = .ok g' →
      (∃ kw d', Dict.get g.connection_types t = some kw ∧
        Dict.get g'.connections A = some d' ∧ Dict.get d' B = some kw) ∧
      (A ≠ B → Dict.get g'.connections B = Dict.get g.connections B)) := by
  constructor
  · constructor
    · intro hOk
      rcases hok' : g.add_connection A B t with e | g'
      · rw [hok'] at hOk
        simp [isOk] at hOk
      · obtain ⟨hab, kw, d, hkw, hd, rfl⟩ := add_connection_ok_elim hok'
        simp only [Bool.and_eq_true] at hab
        exact ⟨hab.1, hab.2, by simp [hkw]⟩
    · rintro ⟨hA, hB, hT⟩
      have hI := inv_of_reachable hr
      obtain ⟨cA, hcA⟩ := Option.isSome_iff_exists.mp hA
      obtain ⟨dA, hdA⟩ := Option.isSome_iff_exists.mp (hI.2 (A, cA) (Dict.get_mem _ _ _ hcA))
      obtain ⟨kw, hkw⟩ := Option.isSome_iff_exists.mp hT
      simp [Graph.add_connection, hA, hB, hkw, hdA, isOk]
  · intro g' hok
    obtain ⟨hab, kw, d, hkw, hd, rfl⟩ := add_connection_ok_elim hok
    refine ⟨⟨kw, Dict.set d B kw, hkw, Dict.get_set_self _ _ _, Dict.get_set_self _ _ _⟩,
      fun hAB => Dict.get_set_ne _ _ _ _ (Ne.symm hAB)⟩

/-- Witness for C4: on the reachable state `gW`, connecting the existing
nodes with the known type `"e"` succeeds. -/
theorem add_connection_checks_witness :
    isOk (Graph.add_connection gW "a" "b" (some "e")) = true :=
  (add_connection_checks gW "a" "b" (some "e") reachable_gW).1.mpr ⟨rfl, rfl, rfl⟩

/-- Counterexample to C4 as stated: on `gW` both `"a"` and `"b"` are
existing nodes, yet `add_connection` with the unknown connection type
`"zzz"` fails with a `KeyError`, where the claim predicts success
whenever both endpoints exist. -/
theorem add_connection_unknown_type_fails :
    isOk (Graph.add_connection gW "a" "b" (some "zzz")) = false ∧
    (Dict.get gW.nodes "a").isSome = true ∧ (Dict.get gW.nodes "b").isSome = true :=
  ⟨rfl, rfl, rfl⟩

/-! ## Claim C9: silent overwrite of an existing connection -/

/-- Claim C9: in a reachable state holding a connection `A → B`, calling
`add_connection(A, B, t)` with a known connection type `t` succeeds,
replaces the stored kwargs for `(A, B)` with those of `t`, and leaves
every other connection entry, the nodes and the rectangles unchanged. -/
theorem add_connection_overwrite (g : Graph) (A B : String) (t : Option String)
    (d : List (String × Kwargs)) (old kw : Kwargs) (hr : Reachable g)
    (hd : Dict.get g.connections A = some d) (hold : Dict.get d B = some old)
    (ht : Dict.get g.connection_types t = some kw) :
    g.add_connection A B t = .ok
      { g with connections := Dict.set g.connections A (Dict.set d B kw) } ∧
    Dict.get (Dict.set g.connections A (Dict.set d B kw)) A = some (Dict.set d B kw) ∧
    Dict.get (Dict.set d B kw) B = some kw ∧
    (∀ X, X ≠ A →
      Dict.get (Dict.set g.connections A (Dict.set d B kw)) X = Dict.get g.connections X) ∧
    (∀ Y, Y ≠ B → Dict.get (Dict.set d B kw) Y = Dict.get d Y) ∧
    ({ g with connections := Dict.set g.connections A (Dict.set d B kw) } : Graph).nodes =
      g.nodes ∧
    ({ g with connections := Dict.set g.connections A (Dict.set d B kw) } : Graph).rectangles =
      g.rectangles := by
  have hI := inv_of_reachable hr
  have hmemA : (A, d) ∈ g.connections := Dict.get_mem _ _ _ hd
  have hA : (Dict.get g.nodes A).isSome = true := (hI.1 _ hmemA).1
  have hB : (Dict.get g.nodes B).isSome = true :=
    (hI.1 _ hmemA).2 (B, old) (Dict.get_mem _ _ _ hold)
  refine ⟨?_, Dict.get_set_self _ _ _, Dict.get_set_self _ _ _,
    fun X hX => Dict.get_set_ne _ _ _ _ hX,
    fun Y hY => Dict.get_set_ne _ _ _ _ hY, rfl, rfl⟩
  simp [Graph.add_connection, hA, hB, ht, hd]

/-- Witness for C9: on `gW`, re-adding the existing connection
`"a" → "b"` with the (known) default connection type `None` succeeds and
replaces the stored kwargs `[("w", 1)]` with `[]`. -/
theorem add_connection_overwrite_witness :
    Graph.add_connection gW "a" "b" none = .ok
      { gW with connections :=
          Dict.set gW.connections "a" (Dict.set [("b", [("w", 1)])] "b" []) } ∧
    Dict.get (Dict.set gW.connections "a" (Dict.set [("b", [("w", 1)])] "b" [])) "a" =
      some (Dict.set [("b", [("w", 1)])] "b" []) ∧
    Dict.get (Dict.set ([("b", [("w", 1)])] : List (String × Kwargs)) "b" []) "b" =
      some [] ∧
    (∀ X, X ≠ "a" →
      Dict.get (Dict.set gW.connections "a" (Dict.set [("b", [("w", 1)])] "b" [])) X =
        Dict.get gW.connections X) ∧
    (∀ Y, Y ≠ "b" →
      Dict.get (Dict.set ([("b", [("w", 1)])] : List (String × Kwargs)) "b" []) Y =
        Dict.get [("b", [("w", 1)])] Y) ∧
    ({ gW with connections :=
        Dict.set gW.connections "a" (Dict.set [("b", [("w", 1)])] "b" []) } : Graph).nodes =
      gW.nodes ∧
    ({ gW with connections :=
        Dict.set gW.connections "a" (Dict.set [("b", [("w", 1)])] "b" []) } : Graph).rectangles =
      gW.rectangles :=
  add_connection_overwrite gW "a" "b" none [("b", [("w", 1)])] [("w", 1)] []
    reachable_gW rfl rfl rfl

/-! ## Claim C2: the bounding box of _render -/

theorem lastRect_cons_isSome (x : String × Rect) (xs : List (String × Rect)) :
    (lastRect (x :: xs)).isSome = true := by
  induction xs generalizing x with
  | nil => rfl
  | cons y ys ih => exact ih y

theorem foldl_rectStep (rs : List (String × Rect)) (s : (ℚ × ℚ) × (ℚ × ℚ)) :
    rs.foldl rectStep s =
      ((rs.foldl (fun m p => min m p.2.xy.1) s.1.1,
        match lastRect rs with
        | none => s.1.2
        | some r => max (rs.foldl (fun m p => min m p.2.xy.1) s.1.1) (r.2.xy.1 + r.2.width)),
       (rs.foldl (fun m p => min m p.2.xy.2) s.2.1,
        match lastRect rs with
        | none => s.2.2
        | some r => max (rs.foldl (fun m p => min m p.2.xy.2) s.2.1) (r.2.xy.2 + r.2.height))) := by
  induction rs generalizing s with
  | nil => simp [lastRect]
  | cons r rest ih =>
    rw [List.foldl_cons, ih]
    cases rest with
    | nil => simp [lastRect, rectStep]
    | cons r2 rest2 =>
      rcases hL : lastRect (r2 :: rest2) with _ | rL
      · exact absurd (lastRect_cons_isSome r2 rest2) (by simp [hL])
      · simp [lastRect, rectStep, hL]

theorem foldl_nodeStep (ns : List (String × Circle)) (s : (ℚ × ℚ) × (ℚ × ℚ)) :
    ns.foldl nodeStep s =
      ((ns.foldl (fun m p => min m (p.2.center.1 - p.2.radius)) s.1.1,
        ns.foldl (fun m p => max m (p.2.center.1 + p.2.radius)) s.1.2),
       (ns.foldl (fun m p => min m (p.2.center.2 - p.2.radius)) s.2.1,
        ns.foldl (fun m p => max m (p.2.center.2 + p.2.radius)) s.2.2)) := by
  induction ns generalizing s with
  | nil => simp
  | cons n rest ih =>
    rw [List.foldl_cons, ih]
    rfl

/-- Claim C2 (amended): the extents of `Graph._render` in closed form.
The minima fold `min` starting from `0` over the rectangle left/bottom
edges and the node extents, so `0` is always included; the maxima fold
`max` over the node extents starting not from the rectangle maximum but
from `max(rectangle minimum, right/top edge of the LAST rectangle)` when
rectangles exist (`0` otherwise), because each rectangle iteration
overwrites the running maximum using the running minimum. -/
theorem renderBBox_closed_form (g : Graph) :
    g.renderBBox = ((fitXMin g, fitXMax g), (fitYMin g, fitYMax g)) := by
  show (g.nodes.foldl nodeStep (g.rectangles.foldl rectStep ((0, 0), (0, 0)))) = _
  rw [foldl_rectStep, foldl_nodeStep]
  cases hL : lastRect g.rectangles with
  | none =>
    simp only [fitXMin, fitXMax, fitYMin, fitYMax, fitRectXMin, fitRectYMin, hL]
  | some r =>
    simp only [fitXMin, fitXMax, fitYMin, fitYMax, fitRectXMin, fitRectYMin, hL]

/-- Witness for C2 at the concrete state `gW`. -/
theorem renderBBox_closed_form_witness :
    Graph.renderBBox gW = ((fitXMin gW, fitXMax gW), (fitYMin gW, fitYMax gW)) :=
  renderBBox_closed_form gW

/-- Counterexample to C2 as stated: on a graph whose rectangles have
right edges `10` and `5` (in that insertion order), the computed `x_max`
is `5`, while the claimed maximum over all rectangle and node extents is
`10` (also visible: the extents are clamped to include `0`, which the
claim omits). -/
theorem renderBBox_forgets_rect_max :
    Graph.renderBBox gRects = ((0, 5), (0, 1)) ∧
    claimedXMax gRects = 10 ∧ (5 : ℚ) ≠ 10 := by
  refine ⟨?_, ?_, by norm_num⟩
  · norm_num [Graph.renderBBox, gRects, gZero, Graph.init, rectStep, nodeStep,
      List.foldl_cons, List.foldl_nil, min_def, max_def]
  · norm_num [claimedXMax, gRects, gZero, Graph.init, listMax,
      List.foldl_cons, List.foldl_nil, max_def]

/-! ## Claim C10: the bounding box can miss the origin -/

/-- Claim C10 evaluated at the failing input: with a single rectangle at
`(-10, -10)` of width and height `1` and no nodes, the computed extents
are `x = [-10, -9]`, `y = [-10, -9]`, so `x_max = -9 < 0`: the box does
not contain the origin, against what the `[0, 0]` initialisation was to
guarantee (the rectangle iteration overwrites the running maximum from
the running minimum). -/
theorem renderBBox_origin_violation :
    Graph.renderBBox gNeg = ((-10, -9), (-10, -9)) ∧
    ¬(0 ≤ (Graph.renderBBox gNeg).1.2) ∧ ¬(0 ≤ (Graph.renderBBox gNeg).2.2) := by
  have h : Graph.renderBBox gNeg = ((-10, -9), (-10, -9)) := by
    norm_num [Graph.renderBBox, gNeg, gZero, Graph.init, rectStep, nodeStep,
      List.foldl_cons, List.foldl_nil, min_def, max_def]
  refine ⟨h, ?_, ?_⟩ <;> rw [h] <;> norm_num

/-! ## Claim C1: arrows start and end on the circle boundaries -/

/-- Claim C1: for distinct centers, the arrow drawn for a connection
`A → B` starts at `A.center + A.radius • unit`, has displacement
`(dist - A.radius - B.radius) • unit`, and hence ends at
`B.center - B.radius • unit`: both endpoints sit on the circle
boundaries along the center line rather than at the centers. -/
theorem arrow_touches_boundary (a b : ℝ × ℝ) (ra rb : ℝ) (h : a ≠ b) :
    0 < dist a b ∧
    arrowStart a ra b = (a.1 + ra * (unit a b).1, a.2 + ra * (unit a b).2) ∧
    arrowDelta a ra b rb =
      ((dist a b - ra - rb) * (unit a b).1, (dist a b - ra - rb) * (unit a b).2) ∧
    (arrowStart a ra b).1 + (arrowDelta a ra b rb).1 = b.1 - rb * (unit a b).1 ∧
    (arrowStart a ra b).2 + (arrowDelta a ra b rb).2 = b.2 - rb * (unit a b).2 := by
  have hne : ¬(b.1 - a.1 = 0 ∧ b.2 - a.2 = 0) := by
    rintro ⟨h1, h2⟩
    exact h (Prod.ext (sub_eq_zero.mp h1).symm (sub_eq_zero.mp h2).symm)
  have hpos : 0 < (b.1 - a.1) ^ 2 + (b.2 - a.2) ^ 2 := by
    rcases not_and_or.mp hne with h1 | h2
    · exact add_pos_of_pos_of_nonneg
        ((sq_nonneg _).lt_of_ne (Ne.symm (pow_ne_zero 2 h1))) (sq_nonneg _)
    · exact add_pos_of_nonneg_of_pos (sq_nonneg _)
        ((sq_nonneg _).lt_of_ne (Ne.symm (pow_ne_zero 2 h2)))
  have hd : 0 < dist a b := by
    unfold dist
    exact Real.sqrt_pos.mpr (by simpa [delta] using hpos)
  have hd0 : dist a b ≠ 0 := ne_of_gt hd
  refine ⟨hd, rfl, ?_, ?_, ?_⟩
  · simp [arrowDelta, mul_comm]
  · simp only [arrowStart, arrowDelta, unit, delta]
    field_simp
    ring
  · simp only [arrowStart, arrowDelta, unit, delta]
    field_simp
    ring

/-- Witness for C1 with centers `(0, 0)` and `(3, 4)` and radii `1`
and `2`. -/
theorem arrow_touches_boundary_witness :
    (((0 : ℝ), (0 : ℝ)) ≠ ((3 : ℝ), (4 : ℝ))) ∧
    (0 < dist ((0 : ℝ), 0) ((3 : ℝ), 4) ∧
      arrowStart ((0 : ℝ), 0) 1 ((3 : ℝ), 4) =
        (0 + 1 * (unit ((0 : ℝ), 0) ((3 : ℝ), 4)).1,
         0 + 1 * (unit ((0 : ℝ), 0) ((3 : ℝ), 4)).2) ∧
      arrowDelta ((0 : ℝ), 0) 1 ((3 : ℝ), 4) 2 =
        ((dist ((0 : ℝ), 0) ((3 : ℝ), 4) - 1 - 2) * (unit ((0 : ℝ), 0) ((3 : ℝ), 4)).1,
         (dist ((0 : ℝ), 0) ((3 : ℝ), 4) - 1 - 2) * (unit ((0 : ℝ), 0) ((3 : ℝ), 4)).2) ∧
      (arrowStart ((0 : ℝ), 0) 1 ((3 : ℝ), 4)).1 +
          (arrowDelta ((0 : ℝ), 0) 1 ((3 : ℝ), 4) 2).1 =
        3 - 2 * (unit ((0 : ℝ), 0) ((3 : ℝ), 4)).1 ∧
      (arrowStart ((0 : ℝ), 0) 1 ((3 : ℝ), 4)).2 +
          (arrowDelta ((0 : ℝ), 0) 1 ((3 : ℝ), 4) 2).2 =
        4 - 2 * (unit ((0 : ℝ), 0) ((3 : ℝ), 4)).2) :=
  ⟨by norm_num [Prod.ext_iff],
   arrow_touches_boundary (0, 0) (3, 4) 1 2 (by norm_num [Prod.ext_iff])⟩

end GraphSpec
